import Mathlib

/-
Verification development for the koji-adjutant containerized build worker.

The Python sources are shallowly embedded in Lean:
  * Python str values are embedded as Lean String where only equality and
    suffix tests matter, and as List Char where the proofs need to take the
    text apart (URL fragment parsing, macros-file parsing).
  * Python dicts that carry policy rules are embedded as structures whose
    fields are Option String, mirroring dict.get returning None for a
    missing key; Python truthiness of an optional string is modelled
    explicitly.
  * Stateful code (the policy cache, the registries) is embedded as explicit
    state passing.
  * Exception-raising engine calls are embedded by parametrising the adapter
    run over a stub that records, per call site, whether the call raises and
    which exit code it returns; the adapter run is then a total function
    that mirrors the try/except/finally control flow of the source.
-/

/-! ## Policy resolver (src/koji_adjutant/policy/resolver.py) -/

/-- A policy rule as the resolver sees it: a JSON object read with dict.get,
so every field is optional. -/
structure PRule where
  rtype : Option String
  tag : Option String
  arch : Option String
  taskType : Option String
  image : Option String
deriving DecidableEq

/-- Python truthiness of an optional string: None and the empty string are
falsy. -/
def pyTruthy : Option String → Bool
  | some s => s ≠ ""
  | none => false

/-- Direct translation of the rule loop of PolicyResolver._evaluate_policy:
scan rules in list order; a tag_arch / tag / task_type rule whose fields
match and whose image is truthy returns immediately; a default rule
overwrites the default accumulator (unconditionally, with rule.get("image"));
at the end the accumulated default image is returned. -/
def evalRules (tagName arch taskType : String) : List PRule → Option String → Option String
  | [], dflt => dflt
  | r :: rest, dflt =>
    if r.rtype = some "tag_arch" then
      if r.tag = some tagName ∧ r.arch = some arch then
        match r.image with
        | some i => if i ≠ "" then some i else evalRules tagName arch taskType rest dflt
        | none => evalRules tagName arch taskType rest dflt
      else evalRules tagName arch taskType rest dflt
    else if r.rtype = some "tag" then
      if r.tag = some tagName then
        match r.image with
        | some i => if i ≠ "" then some i else evalRules tagName arch taskType rest dflt
        | none => evalRules tagName arch taskType rest dflt
      else evalRules tagName arch taskType rest dflt
    else if r.rtype = some "task_type" then
      if r.taskType = some taskType then
        match r.image with
        | some i => if i ≠ "" then some i else evalRules tagName arch taskType rest dflt
        | none => evalRules tagName arch taskType rest dflt
      else evalRules tagName arch taskType rest dflt
    else if r.rtype = some "default" then
      evalRules tagName arch taskType rest r.image
    else
      evalRules tagName arch taskType rest dflt

/-- PolicyResolver._evaluate_policy on a policy given by its rule list. -/
def evaluatePolicy (rules : List PRule) (tagName arch taskType : String) : Option String :=
  evalRules tagName arch taskType rules none

/-- Whether a non-default rule matches a query with a truthy image. -/
def ruleMatches (tagName arch taskType : String) (rtype : String) (r : PRule) : Bool :=
  r.rtype == some rtype &&
  (match rtype with
   | "tag_arch" => r.tag == some tagName && r.arch == some arch
   | "tag" => r.tag == some tagName
   | "task_type" => r.taskType == some taskType
   | _ => true) &&
  pyTruthy r.image

/-- The evaluation the specification describes: record the first match per
precedence class and return the image of the highest precedence class
(tag_arch over tag over task_type over default); the default rule is
consulted only when no higher-precedence rule matched. -/
def specEvalPolicy (rules : List PRule) (tagName arch taskType : String) : Option String :=
  match rules.find? (ruleMatches tagName arch taskType "tag_arch") with
  | some r => r.image
  | none =>
    match rules.find? (ruleMatches tagName arch taskType "tag") with
    | some r => r.image
    | none =>
      match rules.find? (ruleMatches tagName arch taskType "task_type") with
      | some r => r.image
      | none =>
        match rules.find? (fun r => r.rtype == some "default" && pyTruthy r.image) with
        | some r => r.image
        | none => none

/-- The mixed-order precedence policy used both by the specification
(scenario 1) and by the repository's own unit test
test_policy.py::test_resolve_image_precedence: a default rule, then a
task_type rule for buildArch, then a tag rule for f39-build, then a
tag_arch rule for (f39-build, x86_64). -/
def precedencePolicy : List PRule :=
  [ { rtype := some "default", tag := none, arch := none, taskType := none,
      image := some "registry/image:default" },
    { rtype := some "task_type", tag := none, arch := none, taskType := some "buildArch",
      image := some "registry/image:build" },
    { rtype := some "tag", tag := some "f39-build", arch := none, taskType := none,
      image := some "registry/image:f39" },
    { rtype := some "tag_arch", tag := some "f39-build", arch := some "x86_64", taskType := none,
      image := some "registry/image:f39-x86_64" } ]

/-! ### Cache state machine (PolicyResolver.resolve_image)

The cache is a dict keyed by (tag_name, arch), embedded as an association
list from that key to the cached policy's rules; the claims assume an
unexpired TTL, so a cached entry is always valid.  The hub is stable:
_fetch_policy always yields the same optional policy, and every
_fetch_policy invocation is one hub fetch. -/

structure ResolverState where
  cache : List ((String × String) × List PRule)
  hubFetches : Nat
deriving DecidableEq

structure PolicyQuery where
  tagName : String
  arch : String
  taskType : String
deriving DecidableEq

/-- The cache key of a resolve_image call: (tag_name, arch). -/
def resolverKey (q : PolicyQuery) : String × String := (q.tagName, q.arch)

/-- Dict assignment self._cache[cache_key] = ...: replace the binding for
that key. -/
def cacheInsert (cache : List ((String × String) × List PRule))
    (key : String × String) (rules : List PRule) :
    List ((String × String) × List PRule) :=
  (key, rules) :: cache.filter (fun e => e.1 != key)

/-- The cache-lookup half of resolve_image: the (tag_name, arch) key is
looked up, a cached (always-valid) policy is evaluated and a truthy image
is returned; otherwise the call falls through to the hub path. -/
def cachedEval (st : ResolverState) (q : PolicyQuery) : Option String :=
  match st.cache.lookup (resolverKey q) with
  | some rules =>
    match evaluatePolicy rules q.tagName q.arch q.taskType with
    | some img => if img ≠ "" then some img else none
    | none => none
  | none => none

/-- One PolicyResolver.resolve_image call: check the cache under the
(tag_name, arch) key and return a truthy evaluation result; otherwise, if
policy is enabled, fetch from the hub (counting one fetch), cache a
successful fetch under that key, evaluate, and fall back to the config
default. -/
def resolveImageStep (hubPolicy : Option (List PRule)) (policyEnabled : Bool)
    (configDefault : String) (st : ResolverState) (q : PolicyQuery) :
    String × ResolverState :=
  match cachedEval st q with
  | some img => (img, st)
  | none =>
    if policyEnabled then
      let st1 : ResolverState := { st with hubFetches := st.hubFetches + 1 }
      match hubPolicy with
      | some rules =>
        let st2 : ResolverState :=
          { st1 with cache := cacheInsert st1.cache (resolverKey q) rules }
        match evaluatePolicy rules q.tagName q.arch q.taskType with
        | some img => if img ≠ "" then (img, st2) else (configDefault, st2)
        | none => (configDefault, st2)
      | none => (configDefault, st1)
    else
      (configDefault, st)

/-- A sequence of resolve_image calls, threading the resolver state. -/
def resolveSeq (hubPolicy : Option (List PRule)) (policyEnabled : Bool)
    (configDefault : String) (st : ResolverState) : List PolicyQuery → ResolverState
  | [] => st
  | q :: qs => resolveSeq hubPolicy policyEnabled configDefault
      (resolveImageStep hubPolicy policyEnabled configDefault st q).2 qs

/-! ### Lemmas about the resolver state machine -/

theorem resolveImageStep_snd_disabled (hub : Option (List PRule)) (cfg : String)
    (st : ResolverState) (q : PolicyQuery) :
    (resolveImageStep hub false cfg st q).2 = st := by
  unfold resolveImageStep
  cases cachedEval st q <;> simp

theorem resolveSeq_disabled (hub : Option (List PRule)) (cfg : String)
    (qs : List PolicyQuery) (st : ResolverState) :
    resolveSeq hub false cfg st qs = st := by
  induction qs generalizing st with
  | nil => rfl
  | cons q qs ih =>
    rw [resolveSeq, resolveImageStep_snd_disabled]
    exact ih st

theorem resolveImageStep_cacheHit (hub : Option (List PRule)) (enabled : Bool)
    (cfg : String) (st : ResolverState) (q : PolicyQuery) (rules : List PRule)
    (img : String) (hc : st.cache.lookup (resolverKey q) = some rules)
    (he : evaluatePolicy rules q.tagName q.arch q.taskType = some img)
    (hne : img ≠ "") :
    resolveImageStep hub enabled cfg st q = (img, st) := by
  simp [resolveImageStep, cachedEval, hc, he, hne]

theorem resolveSeq_stable (rules : List PRule) (cfg : String)
    (qs : List PolicyQuery) (st : ResolverState)
    (hc : ∀ q ∈ qs, st.cache.lookup (resolverKey q) = some rules)
    (h : ∀ q ∈ qs, ∃ img, evaluatePolicy rules q.tagName q.arch q.taskType = some img ∧ img ≠ "") :
    resolveSeq (some rules) true cfg st qs = st := by
  induction qs generalizing st with
  | nil => rfl
  | cons q qs ih =>
    obtain ⟨img, he, hne⟩ := h q (List.mem_cons_self q qs)
    rw [resolveSeq, resolveImageStep_cacheHit (some rules) true cfg st q rules img
      (hc q (List.mem_cons_self q qs)) he hne]
    exact ih st (fun q hq => hc q (List.mem_cons_of_mem _ hq))
      (fun q hq => h q (List.mem_cons_of_mem _ hq))

theorem resolveImageStep_snd_firstFetch (rules : List PRule) (cfg : String)
    (q : PolicyQuery) (st : ResolverState)
    (hc : st.cache.lookup (resolverKey q) = none) :
    (resolveImageStep (some rules) true cfg st q).2 =
      { cache := cacheInsert st.cache (resolverKey q) rules,
        hubFetches := st.hubFetches + 1 } := by
  unfold resolveImageStep
  rw [show cachedEval st q = none by simp [cachedEval, hc]]
  cases he : evaluatePolicy rules q.tagName q.arch q.taskType with
  | none => simp [he]
  | some img =>
    by_cases hne : img = "" <;> simp [he, hne]

/-- C1 (code bug evidence): on the mixed-order precedence policy that both
specification scenario 1 and the repository's own unit test
test_policy.py::test_resolve_image_precedence use, _evaluate_policy returns
the image of the first-listed matching non-default rule (the task_type
rule), not the image of the higher-precedence tag_arch rule demanded by the
spec, by the method's docstring and by the test; the same image propagates
through resolve_image. -/
theorem policy_eval_first_listed_rule_beats_tag_arch :
    evaluatePolicy precedencePolicy "f39-build" "x86_64" "buildArch"
        = some "registry/image:build" ∧
    specEvalPolicy precedencePolicy "f39-build" "x86_64" "buildArch"
        = some "registry/image:f39-x86_64" ∧
    (resolveImageStep (some precedencePolicy) true "config-default-image"
        { cache := [], hubFetches := 0 }
        { tagName := "f39-build", arch := "x86_64", taskType := "buildArch" }).1
        = "registry/image:build" := by
  refine ⟨by decide, by decide, by decide⟩

/-- A policy holding only a task_type rule for buildArch, as a hub stub. -/
def taskOnlyPolicy : List PRule :=
  [ { rtype := some "task_type", tag := none, arch := none, taskType := some "buildArch",
      image := some "registry/image:build" } ]

/-- C4 (counterexample): with a stable hub policy and an unexpired TTL, two
resolve_image calls for the same (tag_name, arch) key whose task_type
matches no rule each perform a hub fetch, because a cache hit whose
evaluation yields no image falls through to a fresh hub fetch. -/
theorem resolver_refetches_when_cached_policy_has_no_match :
    (resolveSeq (some taskOnlyPolicy) true "config-default-image"
        { cache := [], hubFetches := 0 }
        [ { tagName := "f39-build", arch := "x86_64", taskType := "createrepo" },
          { tagName := "f39-build", arch := "x86_64", taskType := "createrepo" } ]).hubFetches = 2 ∧
    ¬ (resolveSeq (some taskOnlyPolicy) true "config-default-image"
        { cache := [], hubFetches := 0 }
        [ { tagName := "f39-build", arch := "x86_64", taskType := "createrepo" },
          { tagName := "f39-build", arch := "x86_64", taskType := "createrepo" } ]).hubFetches ≤ 1 := by
  refine ⟨by decide, by decide⟩

/-- C4 (amended): for a fixed (tag_name, arch) key with a stable hub policy
and an unexpired TTL, the resolver performs at most one hub fetch across any
sequence of resolve_image calls for that key (with any task_type values),
provided every call's evaluation of that policy yields a (truthy) image —
in particular whenever the policy carries a default rule with an image. -/
theorem resolver_single_fetch_when_every_resolve_matches
    (rules : List PRule) (cfg : String) (enabled : Bool) (t a : String)
    (qs : List PolicyQuery)
    (hkey : ∀ q ∈ qs, q.tagName = t ∧ q.arch = a)
    (h : ∀ q ∈ qs, ∃ img,
      evaluatePolicy rules q.tagName q.arch q.taskType = some img ∧ img ≠ "") :
    (resolveSeq (some rules) enabled cfg { cache := [], hubFetches := 0 } qs).hubFetches ≤ 1 := by
  cases enabled with
  | false =>
    rw [resolveSeq_disabled]
    exact Nat.zero_le 1
  | true =>
    cases qs with
    | nil => exact Nat.zero_le 1
    | cons q qs =>
      obtain ⟨hq1, hq2⟩ := hkey q (List.mem_cons_self q qs)
      have hkeyq : resolverKey q = (t, a) := by
        simp [resolverKey, hq1, hq2]
      rw [resolveSeq,
        resolveImageStep_snd_firstFetch rules cfg q { cache := [], hubFetches := 0 } rfl]
      rw [resolveSeq_stable rules cfg qs _ ?_ (fun q hq => h q (List.mem_cons_of_mem _ hq))]
      intro q2 hq2mem
      obtain ⟨hk1, hk2⟩ := hkey q2 (List.mem_cons_of_mem _ hq2mem)
      simp [cacheInsert, resolverKey, hkeyq, hk1, hk2, hq1, hq2, List.lookup]

/-- C4 (witness): the amended theorem applied to the precedence policy and
two queries for the same (f39-build, x86_64) key with distinct task types:
one hub fetch serves both. -/
theorem resolver_single_fetch_witness :
    (resolveSeq (some precedencePolicy) true "config-default-image"
        { cache := [], hubFetches := 0 }
        [ { tagName := "f39-build", arch := "x86_64", taskType := "buildArch" },
          { tagName := "f39-build", arch := "x86_64", taskType := "createrepo" } ]).hubFetches ≤ 1 := by
  refine resolver_single_fetch_when_every_resolve_matches precedencePolicy
    "config-default-image" true "f39-build" "x86_64" _ ?_ ?_
  · intro q hq
    rcases List.mem_pair.mp hq with h | h <;> subst h <;> exact ⟨rfl, rfl⟩
  · intro q hq
    rcases List.mem_pair.mp hq with h | h <;> subst h
    · exact ⟨"registry/image:build", by decide, by decide⟩
    · exact ⟨"registry/image:f39", by decide, by decide⟩

/-! ## Registries (src/koji_adjutant/monitoring/registry.py)

The two registries are dicts guarded by a reentrant lock; the claims here
are sequential, so each registry is embedded as an association list and each
operation as a pure function on it.  Timestamps are UTC epoch seconds. -/

/-- The mutable fields of a registry TaskInfo entry that the modelled
operations read or write. -/
structure TaskInfoM where
  status : String
  finishedAt : Option Nat
  containerId : Option String
  progress : Option String
deriving DecidableEq

/-- The mutable fields of a registry ContainerInfo entry that the modelled
operations read or write. -/
structure ContainerInfoM where
  status : String
  startedAt : Option Nat
  finishedAt : Option Nat
deriving DecidableEq

/-- ContainerRegistry.unregister: only when the id is present, mark the entry
removed and stamp finished_at; the entry is retained for the history TTL. -/
def cregUnregister (now : Nat) (cs : List (String × ContainerInfoM)) (cid : String) :
    List (String × ContainerInfoM) :=
  if cs.any (fun e => e.1 == cid) then
    cs.map (fun e =>
      if e.1 == cid then (e.1, { e.2 with status := "removed", finishedAt := some now }) else e)
  else cs

/-- ContainerRegistry.update_status: only when the id is present, set the
status, and stamp started_at when moving to running without one. -/
def cregUpdateStatus (now : Nat) (cs : List (String × ContainerInfoM)) (cid : String)
    (status : String) : List (String × ContainerInfoM) :=
  if cs.any (fun e => e.1 == cid) then
    cs.map (fun e =>
      if e.1 == cid then
        (e.1, { e.2 with
                status := status
                startedAt := (if status == "running" && e.2.startedAt == none
                              then some now else e.2.startedAt) })
      else e)
  else cs

/-- TaskRegistry.update_task_status: only when the id is present, set the
status, stamping finished_at when the status is completed or failed. -/
def tregUpdateTaskStatus (now : Nat) (ts : List (Nat × TaskInfoM)) (tid : Nat)
    (status : String) : List (Nat × TaskInfoM) :=
  if ts.any (fun e => e.1 == tid) then
    ts.map (fun e =>
      if e.1 == tid then
        (e.1, { e.2 with
                status := status
                finishedAt := (if status == "completed" || status == "failed"
                               then some now else e.2.finishedAt) })
      else e)
  else ts

/-- TaskRegistry.update_task_progress: only when the id is present, replace
the progress payload (embedded opaquely). -/
def tregUpdateTaskProgress (ts : List (Nat × TaskInfoM)) (tid : Nat)
    (progress : String) : List (Nat × TaskInfoM) :=
  if ts.any (fun e => e.1 == tid) then
    ts.map (fun e => if e.1 == tid then (e.1, { e.2 with progress := some progress }) else e)
  else ts

/-- TaskRegistry.update_container_id: only when the id is present, set the
container id on the task entry. -/
def tregUpdateContainerId (ts : List (Nat × TaskInfoM)) (tid : Nat)
    (cid : String) : List (Nat × TaskInfoM) :=
  if ts.any (fun e => e.1 == tid) then
    ts.map (fun e => if e.1 == tid then (e.1, { e.2 with containerId := some cid }) else e)
  else ts

/-- C10: every mutating registry operation addressed at an id that is not in
the registry leaves the registry completely unchanged — a silent no-op that
inserts nothing. -/
theorem registry_mutators_noop_on_absent_id
    (now : Nat) (cs : List (String × ContainerInfoM)) (ts : List (Nat × TaskInfoM))
    (cid : String) (tid : Nat) (status progress : String)
    (hc : ∀ e ∈ cs, e.1 ≠ cid) (ht : ∀ e ∈ ts, e.1 ≠ tid) :
    cregUnregister now cs cid = cs ∧
    cregUpdateStatus now cs cid status = cs ∧
    tregUpdateTaskStatus now ts tid status = ts ∧
    tregUpdateTaskProgress ts tid progress = ts ∧
    tregUpdateContainerId ts tid cid = ts := by
  have hcs : cs.any (fun e => e.1 == cid) = false := by
    rw [List.any_eq_false]
    intro e he
    simpa using hc e he
  have hts : ts.any (fun e => e.1 == tid) = false := by
    rw [List.any_eq_false]
    intro e he
    simpa using ht e he
  refine ⟨?_, ?_, ?_, ?_, ?_⟩ <;>
    simp [cregUnregister, cregUpdateStatus, tregUpdateTaskStatus,
      tregUpdateTaskProgress, tregUpdateContainerId, hcs, hts]

/-- C10 (witness): the no-op theorem applied to concrete registries holding
one container and one task, addressed at absent ids. -/
theorem registry_mutators_noop_witness :
    cregUnregister 1000
        [("abc123", { status := "running", startedAt := some 5, finishedAt := none })]
        "missing"
      = [("abc123", { status := "running", startedAt := some 5, finishedAt := none })] ∧
    tregUpdateTaskStatus 1000
        [(42, { status := "running", finishedAt := none, containerId := none, progress := none })]
        7 "failed"
      = [(42, { status := "running", finishedAt := none, containerId := none, progress := none })] := by
  have h := registry_mutators_noop_on_absent_id 1000
    [("abc123", { status := "running", startedAt := some 5, finishedAt := none })]
    [(42, { status := "running", finishedAt := none, containerId := none, progress := none })]
    "missing" 7 "failed" "stage"
    (by intro e he; simp at he; subst he; decide)
    (by intro e he; simp at he; subst he; decide)
  exact ⟨h.1, h.2.2.1⟩

/-! ## Monitoring status endpoint (src/koji_adjutant/monitoring/server.py)

MonitoringRequestHandler._handle_status first runs a TTL cleanup pass, then
counts active tasks (status running), counts tasks finished today with
status completed, and reports healthy exactly when the engine health check
reports healthy.  Timestamps are UTC epoch seconds; the UTC calendar day of
an epoch second is its quotient by 86400. -/

/-- TaskRegistry.cleanup_old_entries: drop entries whose finished_at lies
more than history_ttl seconds in the past. -/
def cleanupTasks (now ttl : Nat) (ts : List (Nat × TaskInfoM)) : List (Nat × TaskInfoM) :=
  ts.filter (fun e =>
    match e.2.finishedAt with
    | some f => ! decide (now - f > ttl)
    | none => true)

/-- Whether a task entry finished on the same UTC day as the given instant. -/
def finishedToday (now : Nat) (e : Nat × TaskInfoM) : Bool :=
  match e.2.finishedAt with
  | some f => f / 86400 == now / 86400
  | none => false

/-- MonitoringRequestHandler._check_podman_health: it instantiates
PodmanManager and calls manager.health_check(), but PodmanManager defines no
health_check method anywhere in the codebase, so the call raises
AttributeError, the except clause swallows it, and the fallback dict with
status unknown is returned — on every request. -/
def checkPodmanHealth : String := "unknown"

/-- The part of the GET /api/v1/status response body the status claim is
about: (active_tasks, tasks_completed_today, status), computed from the task
registry after the cleanup pass; the status field is healthy exactly when
the podman health check reports healthy, which checkPodmanHealth never
does. -/
def statusResponse (now ttl : Nat) (ts : List (Nat × TaskInfoM)) :
    Nat × Nat × String :=
  let ts2 := cleanupTasks now ttl ts
  let active := (ts2.filter (fun e => e.2.status == "running")).length
  let completedToday := (ts2.filter (fun e =>
      match e.2.finishedAt with
      | some f => f / 86400 == now / 86400 && e.2.status == "completed"
      | none => false)).length
  (active, completedToday, if checkPodmanHealth == "healthy" then "healthy" else "degraded")

theorem length_filter_and_split {α : Type} (l : List α) (p q : α → Bool) :
    (l.filter (fun x => p x && q x)).length + (l.filter (fun x => p x && !q x)).length
      = (l.filter p).length := by
  induction l with
  | nil => rfl
  | cons a l ih =>
    simp only [List.filter_cons]
    cases hp : p a with
    | false => simpa [hp] using ih
    | true =>
      cases hq : q a with
      | false => simp only [hp, hq, List.length_cons] at ih ⊢; simp; omega
      | true => simp only [hp, hq, List.length_cons] at ih ⊢; simp; omega

/-- C5 (code bug evidence): with 2 running tasks and 3 tasks finished today
of which exactly 1 failed and the rest completed, and with none of the
finished entries older than the history TTL, GET /api/v1/status reports
active_tasks = 2 and tasks_completed_today = 2 (failed tasks are excluded
from the completed-today count) as the claim says — but its status field is
degraded, not healthy: the health check calls a method PodmanManager does
not define, so it reports unknown on every request. -/
theorem monitoring_status_counts_but_degraded
    (now ttl : Nat) (ts : List (Nat × TaskInfoM))
    (httl : ∀ e ∈ ts, match e.2.finishedAt with
      | some f => now - f ≤ ttl
      | none => True)
    (hrun : (ts.filter (fun e => e.2.status == "running")).length = 2)
    (hfin : (ts.filter (finishedToday now)).length = 3)
    (hfail : (ts.filter (fun e => finishedToday now e && e.2.status == "failed")).length = 1)
    (hst : ∀ e ∈ ts, finishedToday now e = true →
        e.2.status = "completed" ∨ e.2.status = "failed") :
    statusResponse now ttl ts = (2, 2, "degraded") ∧
    (statusResponse now ttl ts).2.2 ≠ "healthy" := by
  suffices hmain : statusResponse now ttl ts = (2, 2, "degraded") by
    exact ⟨hmain, by rw [hmain]; decide⟩
  have hcl : cleanupTasks now ttl ts = ts := by
    apply List.filter_eq_self.mpr
    intro e he
    have h := httl e he
    cases hf : e.2.finishedAt with
    | none => simp [hf]
    | some f =>
      rw [hf] at h
      simp [hf]
      omega
  have hpred : ∀ e ∈ ts,
      (fun e => match e.2.finishedAt with
        | some f => f / 86400 == now / 86400 && e.2.status == "completed"
        | none => false) e
      = (fun e => finishedToday now e && e.2.status == "completed") e := by
    intro e _
    cases hf : e.2.finishedAt <;> simp [finishedToday, hf]
  have hneg : ts.filter (fun e => finishedToday now e && !(e.2.status == "completed"))
      = ts.filter (fun e => finishedToday now e && e.2.status == "failed") := by
    apply List.filter_congr
    intro e he
    cases hft : finishedToday now e with
    | false => simp
    | true =>
      rcases hst e he hft with h | h <;> simp [hft, h]
  have hsplit := length_filter_and_split ts (finishedToday now)
    (fun e => e.2.status == "completed")
  rw [hneg, hfail, hfin] at hsplit
  have h2 : (ts.filter (fun e => finishedToday now e && e.2.status == "completed")).length = 2 := by
    omega
  simp only [statusResponse]
  rw [hcl, List.filter_congr hpred, hrun, h2]
  decide

/-- C5 (witness): the status theorem applied to a concrete registry holding
2 running tasks and 3 tasks finished today, exactly one of them failed: the
counts match the claim, the status field does not. -/
theorem monitoring_status_degraded_witness :
    statusResponse 100000 3600
      [ (1, { status := "running", finishedAt := none, containerId := none, progress := none }),
        (2, { status := "running", finishedAt := none, containerId := none, progress := none }),
        (3, { status := "completed", finishedAt := some 99000, containerId := none, progress := none }),
        (4, { status := "completed", finishedAt := some 98000, containerId := none, progress := none }),
        (5, { status := "failed", finishedAt := some 97000, containerId := none, progress := none }) ]
      = (2, 2, "degraded") := by
  refine (monitoring_status_counts_but_degraded 100000 3600 _ ?_ ?_ ?_ ?_ ?_).1
  · intro e he
    fin_cases he <;> simp
  · decide
  · decide
  · decide
  · intro e he
    fin_cases he <;> decide

/-! ## Log-streaming pump (src/koji_adjutant/container/podman_manager.py)

_stream_container_logs couples a reader and a writer thread through a
bounded queue of maxsize 1024.  The reader is the only producer, so its
_enqueue helper is embedded as a sequential function on the queue contents
(eldest chunk first): put_nowait succeeds while the queue is below capacity;
on overflow the eldest chunk is removed with get_nowait and the new chunk is
then admitted. -/

/-- The Queue(maxsize=1024) bound of the log pump. -/
def logQueueMax : Nat := 1024

/-- The _enqueue helper of _stream_container_logs: append below capacity,
otherwise drop the eldest queued chunk and append. -/
def logEnqueue {α : Type} (q : List α) (x : α) : List α :=
  if q.length < logQueueMax then q ++ [x] else q.drop 1 ++ [x]

theorem logEnqueue_length_le {α : Type} (q : List α) (x : α)
    (h : q.length ≤ logQueueMax) : (logEnqueue q x).length ≤ logQueueMax := by
  simp only [logQueueMax] at h
  simp only [logEnqueue, logQueueMax]
  by_cases hlt : q.length < 1024 <;> simp [hlt] <;> omega

theorem foldl_logEnqueue_length_le {α : Type} (chunks : List α) (q : List α)
    (h : q.length ≤ logQueueMax) :
    (chunks.foldl logEnqueue q).length ≤ logQueueMax := by
  induction chunks generalizing q with
  | nil => exact h
  | cons c cs ih => exact ih (logEnqueue q c) (logEnqueue_length_le q c h)

/-- C7: feeding any chunk sequence through the pump's enqueue keeps the
queue at no more than 1024 chunks, and whenever a chunk arrives at a full
queue the eldest queued chunk is discarded and the new chunk is admitted at
the tail. -/
theorem log_queue_bounded_drop_oldest {α : Type} (chunks : List α)
    (q : List α) (x : α) (hfull : q.length = 1024) :
    (chunks.foldl logEnqueue ([] : List α)).length ≤ 1024 ∧
    logEnqueue q x = q.tail ++ [x] ∧
    (logEnqueue q x).length = 1024 ∧
    (logEnqueue q x).getLast? = some x := by
  have hnot : ¬ q.length < logQueueMax := by
    simp [logQueueMax, hfull]
  refine ⟨foldl_logEnqueue_length_le chunks [] (by simp [logQueueMax]), ?_, ?_, ?_⟩
  · rw [logEnqueue, if_neg hnot, List.drop_one]
  · rw [logEnqueue, if_neg hnot]
    simp [hfull]
  · rw [logEnqueue, if_neg hnot]
    exact List.getLast?_concat _

/-- C7 (witness): the bound and drop-oldest behaviour at a concrete full
queue of 1024 chunks. -/
theorem log_queue_bounded_drop_oldest_witness :
    (([3, 1, 4] : List Nat).foldl logEnqueue []).length ≤ 1024 ∧
    logEnqueue (List.replicate 1024 (0 : Nat)) 7
      = (List.replicate 1024 (0 : Nat)).tail ++ [7] ∧
    (logEnqueue (List.replicate 1024 (0 : Nat)) 7).length = 1024 ∧
    (logEnqueue (List.replicate 1024 (0 : Nat)) 7).getLast? = some 7 :=
  log_queue_bounded_drop_oldest [3, 1, 4] (List.replicate 1024 0) 7
    (by rw [List.length_replicate])

/-! ## BuildArch result collection (src/koji_adjutant/task_adapters/buildarch.py)

After execution, BuildArchAdapter.run walks the regular files under
work_dir/result and classifies each by suffix: .src.rpm to srpms, else .rpm
to rpms, else .log to logs; every path is reported relative to shared
storage as work/<task_id>/result/<name>, and the srpms list is blanked
unless keep_srpm.  Python's str.endswith is embedded as a suffix test on
the character list of the string. -/

/-- Python str.endswith, as a decidably evaluable suffix test. -/
def pyEndsWith (s suffix : String) : Bool :=
  suffix.toList.isSuffixOf s.toList

/-- The upload base work/<task_id>/result used for reported paths. -/
def uploadBase (taskId : Nat) : String := "work/" ++ toString taskId ++ "/result"

/-- The suffix classification loop over the regular file names found under
work_dir/result, in directory iteration order: first matching branch of
.src.rpm / .rpm / .log wins, anything else is ignored. -/
def classifyResultFiles (taskId : Nat) : List String → List String × List String × List String
  | [] => ([], [], [])
  | n :: rest =>
    let r := classifyResultFiles taskId rest
    if pyEndsWith n ".src.rpm" then (r.1, (uploadBase taskId ++ "/" ++ n) :: r.2.1, r.2.2)
    else if pyEndsWith n ".rpm" then ((uploadBase taskId ++ "/" ++ n) :: r.1, r.2.1, r.2.2)
    else if pyEndsWith n ".log" then (r.1, r.2.1, (uploadBase taskId ++ "/" ++ n) :: r.2.2)
    else r

/-- The buildArch result envelope. -/
structure BuildArchResult where
  rpms : List String
  srpms : List String
  logs : List String
  brootid : Nat
deriving DecidableEq

/-- The result collection of BuildArchAdapter.run: classify the files,
blank srpms unless keep_srpm, and report brootid = task_id. -/
def collectBuildArchResult (taskId : Nat) (names : List String) (keepSrpm : Bool) :
    BuildArchResult :=
  let c := classifyResultFiles taskId names
  { rpms := c.1, srpms := if keepSrpm then c.2.1 else [], logs := c.2.2, brootid := taskId }

theorem classifyResultFiles_rpms (taskId : Nat) (names : List String) :
    (classifyResultFiles taskId names).1
      = (names.filter (fun n => pyEndsWith n ".rpm" && !pyEndsWith n ".src.rpm")).map
          (fun n => uploadBase taskId ++ "/" ++ n) := by
  induction names with
  | nil => rfl
  | cons n rest ih =>
    simp only [classifyResultFiles, List.filter_cons]
    cases h1 : pyEndsWith n ".src.rpm" <;> cases h2 : pyEndsWith n ".rpm" <;>
      cases h3 : pyEndsWith n ".log" <;> simp [h1, h2, h3, ih]

theorem classifyResultFiles_srpms (taskId : Nat) (names : List String) :
    (classifyResultFiles taskId names).2.1
      = (names.filter (fun n => pyEndsWith n ".src.rpm")).map
          (fun n => uploadBase taskId ++ "/" ++ n) := by
  induction names with
  | nil => rfl
  | cons n rest ih =>
    simp only [classifyResultFiles, List.filter_cons]
    cases h1 : pyEndsWith n ".src.rpm" <;> cases h2 : pyEndsWith n ".rpm" <;>
      cases h3 : pyEndsWith n ".log" <;> simp [h1, h2, h3, ih]

theorem classifyResultFiles_logs (taskId : Nat) (names : List String) :
    (classifyResultFiles taskId names).2.2
      = (names.filter (fun n =>
            !pyEndsWith n ".src.rpm" && !pyEndsWith n ".rpm" && pyEndsWith n ".log")).map
          (fun n => uploadBase taskId ++ "/" ++ n) := by
  induction names with
  | nil => rfl
  | cons n rest ih =>
    simp only [classifyResultFiles, List.filter_cons]
    cases h1 : pyEndsWith n ".src.rpm" <;> cases h2 : pyEndsWith n ".rpm" <;>
      cases h3 : pyEndsWith n ".log" <;> simp [h1, h2, h3, ih]

/-- C6: over the regular files under work_dir/result, the returned rpms list
is exactly the files ending .rpm but not .src.rpm; the srpms list holds only
files ending .src.rpm; the logs list holds only files ending .log; every
reported path has the shape work/<task_id>/result/<name>. -/
theorem buildarch_result_classification (taskId : Nat) (names : List String)
    (keepSrpm : Bool) :
    (collectBuildArchResult taskId names keepSrpm).rpms
      = (names.filter (fun n => pyEndsWith n ".rpm" && !pyEndsWith n ".src.rpm")).map
          (fun n => uploadBase taskId ++ "/" ++ n) ∧
    (∀ p ∈ (collectBuildArchResult taskId names keepSrpm).srpms,
      ∃ n, n ∈ names ∧ pyEndsWith n ".src.rpm" = true ∧ p = uploadBase taskId ++ "/" ++ n) ∧
    (∀ p ∈ (collectBuildArchResult taskId names keepSrpm).logs,
      ∃ n, n ∈ names ∧ pyEndsWith n ".log" = true ∧ p = uploadBase taskId ++ "/" ++ n) := by
  refine ⟨classifyResultFiles_rpms taskId names, ?_, ?_⟩
  · intro p hp
    simp only [collectBuildArchResult] at hp
    cases keepSrpm with
    | false => simp at hp
    | true =>
      rw [if_pos rfl, classifyResultFiles_srpms] at hp
      rcases List.mem_map.mp hp with ⟨n, hn, rfl⟩
      rcases List.mem_filter.mp hn with ⟨hmem, hsuf⟩
      exact ⟨n, hmem, hsuf, rfl⟩
  · intro p hp
    simp only [collectBuildArchResult] at hp
    rw [classifyResultFiles_logs] at hp
    rcases List.mem_map.mp hp with ⟨n, hn, rfl⟩
    rcases List.mem_filter.mp hn with ⟨hmem, hsuf⟩
    refine ⟨n, hmem, ?_, rfl⟩
    rcases Bool.and_eq_true_iff.mp hsuf with ⟨_, h3⟩
    exact h3

/-- C6 (witness): the classification theorem applied to a concrete result
directory holding one binary RPM, one source RPM, one log and one stray
file. -/
theorem buildarch_result_classification_witness :
    (collectBuildArchResult 42
        ["test-1.0-1.x86_64.rpm", "test-1.0-1.src.rpm", "build.log", "README"] true).rpms
      = ["work/42/result/test-1.0-1.x86_64.rpm"] ∧
    (∃ n, n ∈ ["test-1.0-1.x86_64.rpm", "test-1.0-1.src.rpm", "build.log", "README"] ∧
      pyEndsWith n ".src.rpm" = true ∧
      "work/42/result/test-1.0-1.src.rpm" = uploadBase 42 ++ "/" ++ n) := by
  have h := buildarch_result_classification 42
    ["test-1.0-1.x86_64.rpm", "test-1.0-1.src.rpm", "build.log", "README"] true
  refine ⟨h.1.trans (by decide), h.2.1 "work/42/result/test-1.0-1.src.rpm" (by decide)⟩

/-! ## Git SCM handler (src/koji_adjutant/task_adapters/scm/git.py)

GitHandler.__init__ (with no overriding options) splits the URL once on the
last hash sign via rsplit, then classifies the fragment: a run of 7 to 40
lowercase hexadecimal characters is a commit; a fragment starting with v or
whose start matches digits dot digits is a tag; anything else is a branch;
no fragment (or an empty one, which is falsy) defaults to branch main.
URLs are embedded as character lists. -/

inductive RefType where
  | commit
  | tag
  | branch
deriving DecidableEq

/-- url.rsplit on a hash sign with maxsplit 1: split at the last hash; none
when the url holds no hash. -/
def rsplitHash (l : List Char) : Option (List Char × List Char) :=
  match l.reverse.dropWhile (fun c => c != '#') with
  | [] => none
  | _ :: baseRev =>
    some (baseRev.reverse, (l.reverse.takeWhile (fun c => c != '#')).reverse)

/-- The character class of the commit regex: lowercase hexadecimal. -/
def isLowerHex (c : Char) : Bool :=
  c.isDigit || ('a' ≤ c && c ≤ 'f')

/-- Full match of the commit regex: 7 to 40 lowercase hex characters. -/
def isCommitRef (f : List Char) : Bool :=
  decide (7 ≤ f.length) && decide (f.length ≤ 40) && f.all isLowerHex

/-- ref.startswith of the letter v. -/
def startsWithV : List Char → Bool
  | c :: _ => c == 'v'
  | [] => false

/-- Start-anchored match of the tag regex digits dot digits: a nonempty
digit run, then a dot, then at least one digit. -/
def numDotNumAtStart (f : List Char) : Bool :=
  let ds := f.takeWhile Char.isDigit
  !ds.isEmpty &&
    (match f.drop ds.length with
     | d :: c :: _ => d == '.' && c.isDigit
     | _ => false)

/-- The tag test of GitHandler.__init__: starts with v, or the start matches
digits dot digits. -/
def isTagRef (f : List Char) : Bool :=
  startsWithV f || numDotNumAtStart f

/-- The parse result of GitHandler.__init__: url, ref and ref type. -/
structure GitRefInfo where
  url : List Char
  ref : List Char
  refType : RefType
deriving DecidableEq

/-- GitHandler.__init__ with no overriding options: split the url once on
the last hash, then auto-detect the ref type; with no fragment (the empty
fragment is falsy too) the ref defaults to branch main. -/
def gitHandlerInit (urlStr : List Char) : GitRefInfo :=
  match rsplitHash urlStr with
  | none => { url := urlStr, ref := "main".toList, refType := RefType.branch }
  | some (base, frag) =>
    if frag.isEmpty then { url := base, ref := "main".toList, refType := RefType.branch }
    else if isCommitRef frag then { url := base, ref := frag, refType := RefType.commit }
    else if isTagRef frag then { url := base, ref := frag, refType := RefType.tag }
    else { url := base, ref := frag, refType := RefType.branch }

theorem dropWhile_eq_nil_of_all {α : Type} (p : α → Bool) (l : List α)
    (h : ∀ c ∈ l, p c = true) : l.dropWhile p = [] := by
  induction l with
  | nil => rfl
  | cons c cs ih =>
    rw [List.dropWhile_cons, if_pos (h c (List.mem_cons_self c cs))]
    exact ih (fun x hx => h x (List.mem_cons_of_mem c hx))

theorem takeWhile_append_sep {α : Type} (p : α → Bool) (pre post : List α) (sep : α)
    (h : ∀ c ∈ pre, p c = true) (hsep : p sep = false) :
    (pre ++ sep :: post).takeWhile p = pre := by
  induction pre with
  | nil =>
    rw [List.nil_append, List.takeWhile_cons]
    simp [hsep]
  | cons c cs ih =>
    rw [List.cons_append, List.takeWhile_cons, if_pos (h c (List.mem_cons_self c cs))]
    rw [ih (fun x hx => h x (List.mem_cons_of_mem c hx))]

theorem dropWhile_append_sep {α : Type} (p : α → Bool) (pre post : List α) (sep : α)
    (h : ∀ c ∈ pre, p c = true) (hsep : p sep = false) :
    (pre ++ sep :: post).dropWhile p = sep :: post := by
  induction pre with
  | nil =>
    rw [List.nil_append, List.dropWhile_cons]
    simp [hsep]
  | cons c cs ih =>
    rw [List.cons_append, List.dropWhile_cons, if_pos (h c (List.mem_cons_self c cs))]
    exact ih (fun x hx => h x (List.mem_cons_of_mem c hx))

theorem rsplitHash_no_hash (l : List Char) (h : '#' ∉ l) : rsplitHash l = none := by
  unfold rsplitHash
  rw [dropWhile_eq_nil_of_all _ l.reverse]
  intro c hc
  have : c ≠ '#' := by
    intro e
    exact h (e ▸ List.mem_reverse.mp hc)
  simpa using this

theorem rsplitHash_split_last (base frag : List Char) (hf : '#' ∉ frag) :
    rsplitHash (base ++ '#' :: frag) = some (base, frag) := by
  have hrev : (base ++ '#' :: frag).reverse = frag.reverse ++ '#' :: base.reverse := by
    rw [List.reverse_append]
    simp
  have hall : ∀ c ∈ frag.reverse, (c != '#') = true := by
    intro c hc
    have : c ≠ '#' := by
      intro e
      exact hf (e ▸ List.mem_reverse.mp hc)
    simpa using this
  unfold rsplitHash
  rw [hrev, dropWhile_append_sep _ _ _ _ hall (by simp),
    takeWhile_append_sep _ _ _ _ hall (by simp)]
  simp

theorem isCommitRef_eq_false_of_tag (f : List Char) (h : isTagRef f = true) :
    isCommitRef f = false := by
  rcases Bool.or_eq_true_iff.mp h with hv | hn
  · cases f with
    | nil => simp [startsWithV] at hv
    | cons c cs =>
      have hc : c = 'v' := by simpa [startsWithV] using hv
      subst hc
      have : (('v' :: cs).all isLowerHex) = false := by
        rw [List.all_cons]
        simp [isLowerHex]
      simp [isCommitRef, this]
  · unfold numDotNumAtStart at hn
    rcases Bool.and_eq_true_iff.mp hn with ⟨-, hmatch⟩
    cases hdr : f.drop (f.takeWhile Char.isDigit).length with
    | nil => rw [hdr] at hmatch; simp at hmatch
    | cons d rest =>
      cases rest with
      | nil => rw [hdr] at hmatch; simp at hmatch
      | cons c rest2 =>
        rw [hdr] at hmatch
        have hd : d = '.' := by
          have := (Bool.and_eq_true_iff.mp hmatch).1
          simpa using this
        subst hd
        have hmem : '.' ∈ f :=
          List.mem_of_mem_drop (hdr ▸ List.mem_cons_self '.' (c :: rest2))
        have hall : f.all isLowerHex = false :=
          List.all_eq_false.mpr ⟨'.', hmem, by decide⟩
        simp [isCommitRef, hall]

/-- C8: GitHandler splits a git URL once on the hash sign; with no fragment
the ref is branch main; a fragment of 7 to 40 (lowercase) hex characters is
a commit; a fragment starting with v or whose start matches digits dot
digits is a tag; any other fragment is a branch (the empty fragment is
falsy in Python and so also defaults to branch main). -/
theorem git_fragment_classification (base frag : List Char)
    (hb : '#' ∉ base) (hf : '#' ∉ frag) :
    gitHandlerInit base = { url := base, ref := "main".toList, refType := RefType.branch } ∧
    (7 ≤ frag.length → frag.length ≤ 40 → (∀ c ∈ frag, isLowerHex c = true) →
      gitHandlerInit (base ++ '#' :: frag)
        = { url := base, ref := frag, refType := RefType.commit }) ∧
    (isTagRef frag = true →
      gitHandlerInit (base ++ '#' :: frag)
        = { url := base, ref := frag, refType := RefType.tag }) ∧
    (frag ≠ [] → isCommitRef frag = false → isTagRef frag = false →
      gitHandlerInit (base ++ '#' :: frag)
        = { url := base, ref := frag, refType := RefType.branch }) ∧
    (frag = [] → gitHandlerInit (base ++ '#' :: frag)
        = { url := base, ref := "main".toList, refType := RefType.branch }) := by
  have hsplit := rsplitHash_split_last base frag hf
  have hNonempty : frag ≠ [] → frag.isEmpty = false := by
    intro hne
    cases frag with
    | nil => exact absurd rfl hne
    | cons c cs => rfl
  refine ⟨?_, ?_, ?_, ?_, ?_⟩
  · unfold gitHandlerInit
    rw [rsplitHash_no_hash base hb]
  · intro h7 h40 hhex
    have hne : frag ≠ [] := by
      intro e
      subst e
      simp at h7
    have hcommit : isCommitRef frag = true := by
      unfold isCommitRef
      rw [List.all_eq_true.mpr hhex]
      simp [h7, h40]
    unfold gitHandlerInit
    rw [hsplit]
    simp [hNonempty hne, hcommit]
  · intro ht
    have hc := isCommitRef_eq_false_of_tag frag ht
    have hne : frag ≠ [] := by
      intro e
      subst e
      simp [isTagRef, startsWithV, numDotNumAtStart] at ht
    unfold gitHandlerInit
    rw [hsplit]
    simp [hNonempty hne, hc, ht]
  · intro hne hc ht
    unfold gitHandlerInit
    rw [hsplit]
    simp [hNonempty hne, hc, ht]
  · intro he
    subst he
    unfold gitHandlerInit
    rw [hsplit]
    rfl

/-- C8 (witness): the classification theorem applied to concrete URLs: a
hex fragment is a commit, a v-prefixed fragment is a tag, and a word
fragment is a branch. -/
theorem git_fragment_classification_witness :
    gitHandlerInit ("https://github.com/u/r.git#deadbee".toList)
      = { url := "https://github.com/u/r.git".toList, ref := "deadbee".toList,
          refType := RefType.commit } ∧
    gitHandlerInit ("https://github.com/u/r.git#v1.0.0".toList)
      = { url := "https://github.com/u/r.git".toList, ref := "v1.0.0".toList,
          refType := RefType.tag } ∧
    gitHandlerInit ("https://github.com/u/r.git#rawhide".toList)
      = { url := "https://github.com/u/r.git".toList, ref := "rawhide".toList,
          refType := RefType.branch } ∧
    gitHandlerInit ("https://github.com/u/r.git".toList)
      = { url := "https://github.com/u/r.git".toList, ref := "main".toList,
          refType := RefType.branch } := by
  have hbase : '#' ∉ "https://github.com/u/r.git".toList := by decide
  have h1 := git_fragment_classification "https://github.com/u/r.git".toList
    "deadbee".toList hbase (by decide)
  have h2 := git_fragment_classification "https://github.com/u/r.git".toList
    "v1.0.0".toList hbase (by decide)
  have h3 := git_fragment_classification "https://github.com/u/r.git".toList
    "rawhide".toList hbase (by decide)
  refine ⟨?_, ?_, ?_, h1.1⟩
  · exact h1.2.1 (by decide) (by decide) (by decide)
  · exact h2.2.2.1 (by decide)
  · exact h3.2.2.2.1 (by decide) (by decide) (by decide)

/-! ## Macros-file round trip (src/koji_adjutant/buildroot)

environment.generate_rpm_macros produces the macro mapping (Path slash is
embedded as string concatenation with a slash, matching the POSIX paths the
adapters pass in), and BuildrootInitializer._format_macros_file renders it
as percent-name-space-value lines joined by newlines with a trailing
newline.  The repository has no macros-file reader under src, so the parser
below is modelled from the spec. -/

/-- environment.generate_rpm_macros with the default buildroot_dir
(work_dir/BUILDROOT) and the default dist when none is given. -/
def generateRpmMacros (workDir : List Char) (dist : Option (List Char)) :
    List (List Char × List Char) :=
  [ ("dist".toList, match dist with | some d => d | none => ".almalinux10".toList),
    ("_topdir".toList, workDir),
    ("_builddir".toList, workDir ++ "/build".toList),
    ("_rpmdir".toList, workDir ++ "/result".toList),
    ("_srcrpmdir".toList, workDir ++ "/result".toList),
    ("_sourcedir".toList, workDir ++ "/work".toList),
    ("_specdir".toList, workDir ++ "/work".toList),
    ("_buildrootdir".toList, workDir ++ "/BUILDROOT".toList) ]

/-- One line of BuildrootInitializer._format_macros_file: percent, the macro
name, a space, the value. -/
def formatMacrosLine (nv : List Char × List Char) : List Char :=
  '%' :: (nv.1 ++ ' ' :: nv.2)

/-- The newline join of str.join. -/
def joinLines : List (List Char) → List Char
  | [] => []
  | [l] => l
  | l :: ls => l ++ '\n' :: joinLines ls

/-- BuildrootInitializer._format_macros_file: lines joined with newlines,
plus a trailing newline. -/
def formatMacrosFile (ms : List (List Char × List Char)) : List Char :=
  joinLines (ms.map formatMacrosLine) ++ ['\n']

/-- Split a text on newline characters (the separators are consumed). -/
def splitOnNewline : List Char → List (List Char)
  | [] => [[]]
  | c :: cs =>
    if c = '\n' then [] :: splitOnNewline cs
    else
      match splitOnNewline cs with
      | [] => [[]]
      | h :: t => (c :: h) :: t

/-- Modelled from the spec: the repository ships no macros-file reader under
src, and the spec describes the emitted body as percent-name-space-value
lines terminated by a newline; this reads one such line back, splitting the
name from the value at the first space. -/
def parseMacrosLine (l : List Char) : Option (List Char × List Char) :=
  match l with
  | [] => none
  | c :: rest =>
    if c = '%' then
      match rest.dropWhile (fun x => x != ' ') with
      | [] => none
      | _ :: value => some (rest.takeWhile (fun x => x != ' '), value)
    else none

/-- Modelled from the spec: parse a macros-file body into its mapping,
ignoring lines that are not of the percent-name-space-value shape. -/
def parseMacrosFile (body : List Char) : List (List Char × List Char) :=
  (splitOnNewline body).filterMap parseMacrosLine

theorem splitOnNewline_append_newline (l rest : List Char) (h : '\n' ∉ l) :
    splitOnNewline (l ++ '\n' :: rest) = l :: splitOnNewline rest := by
  induction l with
  | nil => simp [splitOnNewline]
  | cons c cs ih =>
    have hc : c ≠ '\n' := fun e => h (e ▸ List.mem_cons_self c cs)
    have hcs : '\n' ∉ cs := fun hm => h (List.mem_cons_of_mem c hm)
    rw [List.cons_append]
    simp only [splitOnNewline]
    rw [if_neg hc, ih hcs]

theorem parseMacrosLine_formatMacrosLine (n v : List Char)
    (hn : ' ' ∉ n) :
    parseMacrosLine (formatMacrosLine (n, v)) = some (n, v) := by
  have hall : ∀ c ∈ n, (c != ' ') = true := by
    intro c hc
    have : c ≠ ' ' := fun e => hn (e ▸ hc)
    simpa using this
  show parseMacrosLine ('%' :: (n ++ ' ' :: v)) = some (n, v)
  simp only [parseMacrosLine]
  rw [dropWhile_append_sep _ _ _ _ hall (by simp),
    takeWhile_append_sep _ _ _ _ hall (by simp)]
  simp

theorem filterMap_parse_format (ms : List (List Char × List Char))
    (h : ∀ nv ∈ ms, ' ' ∉ nv.1) :
    ms.filterMap (fun nv => parseMacrosLine (formatMacrosLine nv)) = ms := by
  induction ms with
  | nil => rfl
  | cons m ms ih =>
    rw [List.filterMap_cons]
    rw [show parseMacrosLine (formatMacrosLine m) = some m from
      parseMacrosLine_formatMacrosLine m.1 m.2 (h m (List.mem_cons_self m ms))]
    rw [ih (fun nv hnv => h nv (List.mem_cons_of_mem m hnv))]

theorem formatMacrosLine_no_newline (nv : List Char × List Char)
    (h1 : '\n' ∉ nv.1) (h2 : '\n' ∉ nv.2) : '\n' ∉ formatMacrosLine nv := by
  unfold formatMacrosLine
  intro hm
  rcases List.mem_cons.mp hm with he | hm2
  · exact absurd he (by decide)
  · rcases List.mem_append.mp hm2 with hma | hmb
    · exact h1 hma
    · rcases List.mem_cons.mp hmb with he | hmv
      · exact absurd he (by decide)
      · exact h2 hmv

theorem splitOnNewline_joinLines_cons (l : List Char) (ls : List (List Char))
    (h : ∀ x ∈ l :: ls, '\n' ∉ x) :
    splitOnNewline (joinLines (l :: ls) ++ ['\n']) = (l :: ls) ++ [[]] := by
  induction ls generalizing l with
  | nil =>
    rw [show joinLines [l] = l from rfl,
      splitOnNewline_append_newline l [] (h l (List.mem_cons_self l []))]
    rfl
  | cons l2 ls2 ih =>
    rw [show joinLines (l :: l2 :: ls2) = l ++ '\n' :: joinLines (l2 :: ls2) from rfl]
    rw [List.cons_append, List.append_assoc, List.cons_append]
    rw [splitOnNewline_append_newline l _ (h l (List.mem_cons_self l (l2 :: ls2)))]
    rw [ih l2 (fun x hx => h x (List.mem_cons_of_mem l hx))]

/-- The macros-file round trip on any mapping whose names hold no space and
whose names and values hold no newline. -/
theorem parse_format_macros_roundtrip (ms : List (List Char × List Char))
    (h : ∀ nv ∈ ms, ' ' ∉ nv.1 ∧ '\n' ∉ nv.1 ∧ '\n' ∉ nv.2) :
    parseMacrosFile (formatMacrosFile ms) = ms := by
  cases ms with
  | nil => rfl
  | cons m rest =>
    have hlines : ∀ x ∈ formatMacrosLine m :: rest.map formatMacrosLine, '\n' ∉ x := by
      intro x hx
      rcases List.mem_cons.mp hx with rfl | hx2
      · exact formatMacrosLine_no_newline m
          (h m (List.mem_cons_self m rest)).2.1 (h m (List.mem_cons_self m rest)).2.2
      · rcases List.mem_map.mp hx2 with ⟨nv, hnv, rfl⟩
        exact formatMacrosLine_no_newline nv
          (h nv (List.mem_cons_of_mem m hnv)).2.1 (h nv (List.mem_cons_of_mem m hnv)).2.2
    unfold parseMacrosFile formatMacrosFile
    rw [List.map_cons, splitOnNewline_joinLines_cons _ _ hlines,
      List.filterMap_append]
    rw [show List.filterMap parseMacrosLine [[]] = ([] : List (List Char × List Char)) from rfl,
      List.append_nil]
    rw [show (formatMacrosLine m :: List.map formatMacrosLine rest)
        = List.map formatMacrosLine (m :: rest) from rfl]
    rw [List.filterMap_map]
    exact filterMap_parse_format (m :: rest) (fun nv hnv => (h nv hnv).1)

/-- C9: parsing the emitted macros file of the buildroot initializer yields
exactly the mapping generate_rpm_macros produced, for every work directory
and dist tag free of newlines (the adapters pass /work/<task_id> and the
default dist, which always are). -/
theorem macros_file_roundtrip (workDir : List Char) (dist : Option (List Char))
    (hw : '\n' ∉ workDir) (hd : ∀ d, dist = some d → '\n' ∉ d) :
    parseMacrosFile (formatMacrosFile (generateRpmMacros workDir dist))
      = generateRpmMacros workDir dist := by
  apply parse_format_macros_roundtrip
  intro nv hnv
  obtain ⟨a, b⟩ := nv
  show ' ' ∉ a ∧ '\n' ∉ a ∧ '\n' ∉ b
  have hval : ∀ (suf : List Char), '\n' ∉ suf → '\n' ∉ workDir ++ suf := by
    intro suf hs hm
    rcases List.mem_append.mp hm with hma | hmb
    · exact hw hma
    · exact hs hmb
  have hdist : '\n' ∉ (match dist with | some d => d | none => ".almalinux10".toList) := by
    cases dist with
    | none => decide
    | some d => exact hd d rfl
  simp only [generateRpmMacros, List.mem_cons, List.not_mem_nil, or_false,
    Prod.mk.injEq] at hnv
  rcases hnv with he | he | he | he | he | he | he | he <;>
    obtain ⟨rfl, rfl⟩ := he
  · exact ⟨by decide, by decide, hdist⟩
  · exact ⟨by decide, by decide, hw⟩
  · exact ⟨by decide, by decide, hval _ (by decide)⟩
  · exact ⟨by decide, by decide, hval _ (by decide)⟩
  · exact ⟨by decide, by decide, hval _ (by decide)⟩
  · exact ⟨by decide, by decide, hval _ (by decide)⟩
  · exact ⟨by decide, by decide, hval _ (by decide)⟩
  · exact ⟨by decide, by decide, hval _ (by decide)⟩

/-- C9 (witness): the round trip at the concrete work directory of task 42
with the default dist. -/
theorem macros_file_roundtrip_witness :
    parseMacrosFile (formatMacrosFile (generateRpmMacros "/work/42".toList none))
      = generateRpmMacros "/work/42".toList none :=
  macros_file_roundtrip "/work/42".toList none (by decide)
    (fun d hd => by simp at hd)

/-! ## Task adapter runs
(src/koji_adjutant/task_adapters/buildarch.py,
 src/koji_adjutant/task_adapters/rebuild_srpm.py,
 src/koji_adjutant/container/podman_manager.py)

BuildArchAdapter.build_spec builds a /bin/bash -c command in both of its
branches: the buildroot branch (which in fact aborts on a KeyError, because
it reads init_result["script"] and init_result["macros"] while
BuildrootInitializer.initialize returns neither key, and the except clause
falls back to Phase 1) and the Phase-1 branch.  The inline script bodies
are abridged to markers here: no claim inspects them, only the argv head
matters.  BuildArchAdapter.run takes its exec-pattern branch only when
spec.command equals the sleep command, which build_spec never produces, so
the reachable path is the manager.run convenience.  RebuildSRPMAdapter
launches with sleep and drives the exec pattern. -/

/-- The keys of the dict returned by BuildrootInitializer.initialize. -/
def initializeResultKeys : List String :=
  [ "repo_file_content", "repo_file_dest", "macros_file_content", "macros_file_dest",
    "init_commands", "build_command", "environment", "dependencies", "tag_id", "tag_name" ]

/-- The launch command of the exec pattern. -/
def sleepCommand : List String := ["/bin/sleep", "infinity"]

/-- Marker for the inline Phase-1 build script body of build_spec (verify
the SRPM, mkdir result build BUILDROOT, rpmbuild --rebuild); its text is
never compared by the code, only the argv head is. -/
def buildArchPhase1Script : String :=
  "set -euo pipefail; cd the work dir; verify the SRPM; rpmbuild --rebuild (abridged)"

/-- Marker for the inline buildroot-branch script body of build_spec (run
buildroot-init.sh then rpmbuild with the macros); never reached, see
buildArchSpecCommand. -/
def buildArchBuildrootScript : String :=
  "set -euo pipefail; run buildroot-init.sh; rpmbuild with macro defines (abridged)"

/-- The Phase-1 fallback command of BuildArchAdapter.build_spec. -/
def buildArchPhase1Command : List String := ["/bin/bash", "-c", buildArchPhase1Script]

/-- The buildroot-branch command of BuildArchAdapter.build_spec. -/
def buildArchBuildrootCommand : List String := ["/bin/bash", "-c", buildArchBuildrootScript]

/-- The command BuildArchAdapter.build_spec puts into the ContainerSpec: the
buildroot branch is taken only when buildroot is in use, and before building
its command it writes init_result["script"], a key initialize never returns,
so the KeyError sends it to the Phase-1 fallback; had the key existed the
branch would still emit a bash script command, not sleep. -/
def buildArchSpecCommand (useBuildroot : Bool) : List String :=
  if useBuildroot then
    if "script" ∈ initializeResultKeys then buildArchBuildrootCommand
    else buildArchPhase1Command
  else buildArchPhase1Command

/-- The exec-pattern guard of BuildArchAdapter.run:
use_buildroot and spec.command == ["/bin/sleep", "infinity"]. -/
def buildArchExecPatternTaken (useBuildroot : Bool) : Bool :=
  useBuildroot && (buildArchSpecCommand useBuildroot == sleepCommand)

/-- The command RebuildSRPMAdapter.build_spec puts into the ContainerSpec. -/
def rebuildSrpmSpecCommand : List String := sleepCommand

/-- C2 (code bug evidence): for buildArch, build_spec never emits the sleep
launch command — both branches produce a /bin/bash script — so the
exec-pattern guard of run is false even with a session and buildroot
enabled, and the adapter executes through the single-shot manager.run
instead of the copy-and-exec sequence; the rebuildSRPM adapter, by
contrast, does launch with sleep. -/
theorem buildarch_exec_pattern_unreachable :
    (∀ b : Bool, (buildArchSpecCommand b).head? = some "/bin/bash" ∧
      buildArchSpecCommand b ≠ sleepCommand ∧
      buildArchExecPatternTaken b = false) ∧
    rebuildSrpmSpecCommand = sleepCommand := by
  refine ⟨?_, rfl⟩
  intro b
  cases b <;> exact ⟨rfl, by decide, by decide⟩

/-- The outcome of one engine call that returns an exit code: the call can
raise, or return a code. -/
inductive StepResult where
  | raise
  | ok (code : Int)
deriving DecidableEq

/-- Whether the exec call itself raised (its exit code being ignored). -/
def stepRaises : StepResult → Bool
  | .raise => true
  | .ok _ => false

/-- Whether a checked exec step aborts the run: the call raised, or the
adapter raises ContainerError on its non-zero exit code. -/
def stepFails : StepResult → Bool
  | .raise => true
  | .ok c => c != 0

/-- Engine stub for one RebuildSRPMAdapter.run, one field per call site in
source order. -/
structure RebuildStub where
  initData : Bool
  ensureImage : Bool
  create : Bool
  start : Bool
  streamLogs : Bool
  copyRepo : Bool
  copyMacros : Bool
  initCmds : List StepResult
  mkdirSrpmDir : StepResult
  copySrpm : Bool
  unpackMkdir : StepResult
  unpackInstall : StepResult
  unpackLsSpecs : StepResult
  rebuildMkdirResult : StepResult
  rebuildCmd : StepResult
  lsResultDir : StepResult
  resultFiles : List String
deriving DecidableEq

/-- Whether the try-block body of RebuildSRPMAdapter.run raises after the
container was created, following the source order: start, stream_logs, the
two copy_to calls, the init-command loop (raise or non-zero exit raises
ContainerError), the srpm-dir mkdir exec (exit ignored), copying the SRPM
in, unpack_srpm (mkdir exec ignored, rpm -ivh checked, ls ignored), and
rebuild_srpm (mkdir ignored, rpmbuild checked), then the ls of the result
dir.  Whether any step raises is what the claims observe, so the aborting
order folds into a disjunction. -/
def rebuildBodyRaises (s : RebuildStub) : Bool :=
  !s.start || !s.streamLogs || !s.copyRepo || !s.copyMacros ||
  s.initCmds.any stepFails ||
  stepRaises s.mkdirSrpmDir || !s.copySrpm ||
  stepRaises s.unpackMkdir || stepFails s.unpackInstall || stepRaises s.unpackLsSpecs ||
  stepRaises s.rebuildMkdirResult || stepFails s.rebuildCmd || stepRaises s.lsResultDir

/-- The rebuildSRPM result envelope (the source dict is reduced to the
fields the claims observe; sourceSet records whether the source mapping was
filled in rather than left as the empty dict of the error result). -/
structure RebuildResultM where
  srpm : String
  logs : List String
  brootid : Nat
  sourceSet : Bool
deriving DecidableEq

/-- The error result of RebuildSRPMAdapter.run. -/
def emptyRebuildResult : RebuildResultM :=
  { srpm := "", logs := [], brootid := 0, sourceSet := false }

/-- What one adapter run leaves behind: the returned exit code and result,
whether a force-remove of the created container was invoked, and the last
status written to the task registry entry. -/
structure RebuildTrace where
  exitCode : Int
  result : RebuildResultM
  forceRemoveCalled : Bool
  taskStatus : Option String
deriving DecidableEq

/-- RebuildSRPMAdapter.run on the engine stub.  The task is registered as
running on entry; a raise anywhere in the try block lands in the except
branch (status failed, return (1, empty result)), and the finally branch
force-removes the container whenever one was created; on a clean body the
host-side collection gathers .src.rpm and .log files, returns exit 1 with
the task still running when no SRPM is found (the early return skips the
status update), and otherwise returns the first SRPM with exit 0 and the
task completed (the in-container exit code observed last is the final init
command's 0; the best-effort koji header validation is skipped when the
koji library is unavailable, as modelled here). -/
def rebuildSrpmRun (s : RebuildStub) (taskId : Nat) : RebuildTrace :=
  if !s.initData || !s.ensureImage then
    { exitCode := 1, result := emptyRebuildResult, forceRemoveCalled := false,
      taskStatus := some "failed" }
  else if !s.create then
    { exitCode := 1, result := emptyRebuildResult, forceRemoveCalled := false,
      taskStatus := some "failed" }
  else if rebuildBodyRaises s then
    { exitCode := 1, result := emptyRebuildResult, forceRemoveCalled := true,
      taskStatus := some "failed" }
  else
    let srpms := s.resultFiles.filter (fun n => pyEndsWith n ".src.rpm")
    let logs := (s.resultFiles.filter
        (fun n => !pyEndsWith n ".src.rpm" && pyEndsWith n ".log")).map
        (fun n => uploadBase taskId ++ "/" ++ n)
    match srpms with
    | [] =>
      { exitCode := 1,
        result := { srpm := "", logs := logs, brootid := 0, sourceSet := false },
        forceRemoveCalled := true, taskStatus := some "running" }
    | n :: _ =>
      { exitCode := 0,
        result := { srpm := uploadBase taskId ++ "/" ++ n, logs := logs,
                    brootid := taskId, sourceSet := true },
        forceRemoveCalled := true, taskStatus := some "completed" }

/-- Engine stub for one BuildArchAdapter.run through manager.run. -/
structure BuildArchStub where
  ensureImage : Bool
  create : Bool
  start : Bool
  streamLogs : Bool
  wait : StepResult
  removeAfterOk : Bool
  resultFiles : List String
  keepSrpm : Bool
deriving DecidableEq

/-- PodmanManager.run: ensure_image_available, create, start, stream_logs,
wait; any raise after creation triggers a force-remove before the
ContainerError propagates; on success the container is removed (the adapter
sets remove_after_exit), a raise of that removal propagating without the
exception-path force-remove.  Returns (exit code when clean, whether the
exception-path force-remove ran). -/
def managerRunOutcome (s : BuildArchStub) : Option Int × Bool :=
  if !s.ensureImage || !s.create then (none, false)
  else if !s.start || !s.streamLogs then (none, true)
  else
    match s.wait with
    | .raise => (none, true)
    | .ok c => if s.removeAfterOk then (some c, false) else (none, false)

/-- What one buildArch run leaves behind. -/
structure BuildArchTrace where
  exitCode : Int
  result : BuildArchResult
  forceRemoveCalled : Bool
  taskStatus : Option String
deriving DecidableEq

/-- The empty buildArch error result. -/
def emptyBuildArchResult : BuildArchResult :=
  { rpms := [], srpms := [], logs := [], brootid := 0 }

/-- BuildArchAdapter.run with a session and buildroot enabled: build_spec
yields a bash command (buildarch_exec_pattern_unreachable), so the
exec-pattern guard fails and execution goes through manager.run; a raise
returns (1, empty result); otherwise the result files are collected.  The
adapter contains no task-registry code at all, so the task status is
untouched (none throughout). -/
def buildArchRun (s : BuildArchStub) (taskId : Nat) : BuildArchTrace :=
  match managerRunOutcome s with
  | (none, frc) =>
    { exitCode := 1, result := emptyBuildArchResult, forceRemoveCalled := frc,
      taskStatus := none }
  | (some c, frc) =>
    { exitCode := c, result := collectBuildArchResult taskId s.resultFiles s.keepSrpm,
      forceRemoveCalled := frc, taskStatus := none }

/-- A buildArch run whose container is created and started and whose wait
call then raises. -/
def buildArchWaitRaiseStub : BuildArchStub :=
  { ensureImage := true, create := true, start := true, streamLogs := true,
    wait := StepResult.raise, removeAfterOk := true, resultFiles := [], keepSrpm := false }

/-- C3 (counterexample): a buildArch run in which the container was created
and a later step raised returns exit 1 with the empty result and the
force-remove runs, but the adapter records nothing in the task registry —
in particular it does not record the task as failed. -/
theorem buildarch_exception_not_recorded_failed :
    (buildArchRun buildArchWaitRaiseStub 42).exitCode = 1 ∧
    (buildArchRun buildArchWaitRaiseStub 42).forceRemoveCalled = true ∧
    (buildArchRun buildArchWaitRaiseStub 42).result = emptyBuildArchResult ∧
    (buildArchRun buildArchWaitRaiseStub 42).taskStatus = none ∧
    (buildArchRun buildArchWaitRaiseStub 42).taskStatus ≠ some "failed" := by
  refine ⟨rfl, rfl, rfl, rfl, by decide⟩

/-- C3 (amended): for the rebuildSRPM adapter the claim holds in full: when
the container was created and any later step of the run body raises, the
adapter force-removes the container, returns exit code 1 with the empty
result, and records the task as failed. -/
theorem rebuild_srpm_cleanup_on_exception (s : RebuildStub) (taskId : Nat)
    (hi : s.initData = true) (he : s.ensureImage = true) (hc : s.create = true)
    (hr : rebuildBodyRaises s = true) :
    rebuildSrpmRun s taskId =
      { exitCode := 1, result := emptyRebuildResult, forceRemoveCalled := true,
        taskStatus := some "failed" } := by
  simp [rebuildSrpmRun, hi, he, hc, hr]

/-- C3 (witness): the rebuildSRPM cleanup theorem at a concrete stub whose
second init command exits non-zero after a successful create. -/
theorem rebuild_srpm_cleanup_witness :
    rebuildSrpmRun
      { initData := true, ensureImage := true, create := true, start := true,
        streamLogs := true, copyRepo := true, copyMacros := true,
        initCmds := [StepResult.ok 0, StepResult.ok 1],
        mkdirSrpmDir := StepResult.ok 0, copySrpm := true,
        unpackMkdir := StepResult.ok 0, unpackInstall := StepResult.ok 0,
        unpackLsSpecs := StepResult.ok 0, rebuildMkdirResult := StepResult.ok 0,
        rebuildCmd := StepResult.ok 0, lsResultDir := StepResult.ok 0,
        resultFiles := [] } 7
      = { exitCode := 1, result := emptyRebuildResult, forceRemoveCalled := true,
          taskStatus := some "failed" } :=
  rebuild_srpm_cleanup_on_exception _ 7 rfl rfl rfl (by decide)
